import Mathlib

/-!
# Shallow embedding of the simulation core (`src/scripts/sim/city.js`)

The `City` class owns a `size × size` grid of `Tile`s, a treasury
(`money`), a two-level mission table, a simulation clock (`simTime`) and
the operations `getTile`, `simulate`, `hasMoneyForBuild`, `placeBuilding`,
`bulldoze`, `destroy`, `findTile`, `getTileNeighbors`.

Modelling conventions:
* JS numbers used as money are modelled as `Int`; coordinates arriving
  from callers are `Int` (the `x === undefined` guard of `getTile` has no
  counterpart because an `Int` is always defined); grid-internal
  coordinates are `Nat`.
* Fallible operations — those that can throw a `TypeError` in JS (a
  member access on `null`) — return `Option`, with `none` marking the
  throw.  `bulldoze`, `destroy` and `findTile` read `tile.building` /
  `tile.id` without a null guard, so they are fallible; `placeBuilding`
  guards with `if (tile && ...)` and is total.
* External collaborators (THREE.js scene graph, `window.ui`
  notifications and sounds, `vehicleGraph`, mesh refresh) carry no
  simulation state and are omitted; the simulation-relevant state is the
  grid, the treasury, the level/mission table, `missionCounter` and
  `simTime`.
* The classes `Tile`, the building classes and the registered services
  are code of the repository that is not under `src/`.  A `Tile` is
  modelled from the spec as coordinates plus an optional `Building`
  (spec §3: "a grid cell holding at most one Building reference");
  a `Building` as a type plus a resident count (`building?.residents?.
  count ?? 0` in the population scan).  The per-tile and per-service
  `simulate(city)` hooks are arbitrary synchronous state mutators (spec
  §4.5) and are passed to `simulate` as explicit function parameters.
-/

/-- Building types.  Modelled from the spec: `buildingType.js` is not under
`src/`; the spec enumerates "residential, road, …", so further types are
represented by `commercial` and `industrial`. -/
inductive BuildingType where
  | residential
  | road
  | commercial
  | industrial
deriving DecidableEq, Repr

/-- A placed building: its type and its resident count (`residents?.count
?? 0`; buildings without residents carry count 0). -/
structure Building where
  type : BuildingType
  residents : Nat
deriving DecidableEq, Repr

/-- A grid cell.  Modelled from the spec: `tile.js` is not under `src/`;
a Tile has immutable `(x, y)` coordinates matching its grid position and
an optional owned `Building`.  Its identity token (`tile.id`) is taken to
be its coordinate pair, which is unique per tile in a well-formed grid. -/
structure Tile where
  x : Nat
  y : Nat
  building : Option Building
deriving DecidableEq, Repr

/-- Manhattan distance between two tiles.  Modelled from the spec:
`tile.distanceTo` lives in `tile.js` (not under `src/`); spec §4.3 step 3
defines it as Manhattan distance on integer coordinates. -/
def distanceTo (a b : Tile) : Nat :=
  ((a.x : Int) - b.x).natAbs + ((a.y : Int) - b.y).natAbs

/-- One mission threshold kind: the JS missions carry exactly one of the
fields `citizens`, `buildings`, `road` (all with non-zero targets, so the
`if (mission.citizens)` truthiness tests select the kind). -/
inductive MissionKind where
  | citizens
  | buildings
  | road
deriving DecidableEq, Repr

/-- One entry of the `levels` table: its threshold kind, its target value
and its `done` flag (the description text is irrelevant to the dynamics
and omitted). -/
structure Mission where
  kind : MissionKind
  target : Nat
  done : Bool
deriving DecidableEq, Repr

/-- The simulation-relevant state of a `City`: grid (`tiles[x][y]`,
column-major), treasury (`money`), mission `level`, the `levels` table
(index 0 = level 1), the per-call `missionCounter`, and the clock
`simTime`. -/
structure City where
  name : String
  size : Nat
  tiles : List (List Tile)
  money : Int
  level : Nat
  levels : List (List Mission)
  missionCounter : Nat
  simTime : Nat
deriving DecidableEq, Repr

/-- The initial `levels` table of `City`: level 1 requires 35 residents,
5 residential buildings, 1 road; level 2 requires 75 residents, 10
residential buildings, 5 roads; all `done` flags start false. -/
def initialLevels : List (List Mission) :=
  [ [ ⟨MissionKind.citizens, 35, false⟩,
      ⟨MissionKind.buildings, 5, false⟩,
      ⟨MissionKind.road, 1, false⟩ ],
    [ ⟨MissionKind.citizens, 75, false⟩,
      ⟨MissionKind.buildings, 10, false⟩,
      ⟨MissionKind.road, 5, false⟩ ] ]

/-- The `City` constructor: builds the `size × size` grid of empty tiles
whose coordinates match their grid position, sets the starting treasury,
level 1, fresh mission table, clock 0. -/
def buildCity (size : Nat) (money : Int) (name : String) : City :=
  { name := name
    size := size
    tiles := (List.range size).map fun x =>
      (List.range size).map fun y => ⟨x, y, none⟩
    money := money
    level := 1
    levels := initialLevels
    missionCounter := 0
    simTime := 0 }

/-- `City.getTile(x, y)`: bounds-checked lookup, `null` (here `none`) for
out-of-range coordinates, otherwise `this.tiles[x][y]`.  (The JS
`x === undefined` test has no counterpart for `Int` arguments; an index
miss in the backing lists — impossible for a constructor-built city —
also yields `none`.) -/
def getTile (c : City) (x y : Int) : Option Tile :=
  if x < 0 ∨ y < 0 ∨ (c.size : Int) ≤ x ∨ (c.size : Int) ≤ y then
    none
  else
    (c.tiles.get? x.toNat).bind fun col => col.get? y.toNat

/-- All tiles of the grid in column-major order. -/
def allTiles (c : City) : List Tile :=
  c.tiles.flatten

/-- `City.population` (getter): full rescan of the grid summing
`tile.building?.residents?.count ?? 0`. -/
def population (c : City) : Nat :=
  ((List.range c.size).map fun x =>
    ((List.range c.size).map fun y =>
      match (getTile c x y).bind Tile.building with
      | some b => b.residents
      | none => 0).sum).sum

/-- `City.hasMoneyForBuild(buildingType)`: for residential with treasury
≥ 500 deduct 500 and return true; else for road with treasury ≥ 100
deduct 100 and return true; else return false without mutation.  Returns
(result, updated city). -/
def hasMoneyForBuild (c : City) (buildingType : BuildingType) :
    Bool × City :=
  if buildingType = BuildingType.residential ∧ 500 ≤ c.money then
    (true, { c with money := c.money - 500 })
  else if buildingType = BuildingType.road ∧ 100 ≤ c.money then
    (true, { c with money := c.money - 100 })
  else
    (false, c)

/-- Replace the element at index `i` of a list by `f` of it; lists too
short are returned unchanged. -/
def updateAt {α : Type} (i : Nat) (f : α → α) : List α → List α
  | [] => []
  | a :: as =>
    match i with
    | 0 => f a :: as
    | n + 1 => a :: updateAt n f as

/-- Write `b` into the `building` slot of `tiles[x][y]`
(`tile.setBuilding(b)` on the tile returned by `getTile`). -/
def setTileBuilding (c : City) (x y : Nat) (b : Option Building) : City :=
  { c with tiles := updateAt x (updateAt y fun t => { t with building := b }) c.tiles }

/-- `City.bulldoze(x, y)`: reads `this.getTile(x, y).building` with no
null guard, so an out-of-bounds coordinate throws a TypeError (`none`
here).  On an empty in-bounds tile nothing happens; on a road the
treasury is credited 50, on a residential building 250, on any other
building nothing is credited; in every occupied case the building is
disposed and the tile's slot cleared. -/
def bulldoze (c : City) (x y : Int) : Option City :=
  match getTile c x y with
  | none => none
  | some tile =>
    match tile.building with
    | none => some c
    | some b =>
      let c1 :=
        if b.type = BuildingType.road then
          { c with money := c.money + 50 }
        else if b.type = BuildingType.residential then
          { c with money := c.money + 250 }
        else c
      some (setTileBuilding c1 x.toNat y.toNat none)

/-- `City.destroy(x, y)`: reads `this.getTile(x, y).building` with no
null guard, so an out-of-bounds coordinate throws a TypeError (`none`
here).  Only a residential building is removed (with no refund); an
empty tile or any non-residential building leaves the city untouched. -/
def destroy (c : City) (x y : Int) : Option City :=
  match getTile c x y with
  | none => none
  | some tile =>
    match tile.building with
    | none => some c
    | some b =>
      if b.type = BuildingType.residential then
        some (setTileBuilding c x.toNat y.toNat none)
      else
        some c

/-- Well-formedness of a city's grid: `tiles` is a `size × size` matrix
and the tile stored at `[x][y]` carries coordinates `(x, y)` — exactly
what the constructor establishes and no operation disturbs. -/
def WFb (c : City) : Bool :=
  (c.tiles.length == c.size) &&
  (List.range c.size).all fun x =>
    match c.tiles.get? x with
    | none => false
    | some col =>
      (col.length == c.size) &&
      (List.range c.size).all fun y =>
        match col.get? y with
        | none => false
        | some t => t.x == x && t.y == y

/-!
## `City.simulate(steps)`

Per executed step the JS loop runs every registered service's
`simulate(this)` hook, then scans the grid in column-major order,
incrementing `buildCount` on a residential building and `roadCount` on a
road before running the tile's own `simulate(this)` hook.  The two
counters are declared *outside* the `while` loop and never reset, so they
carry over from step to step.  After the loop the mission table of the
current level is evaluated once against `this.population` and the two
counters; if all 3 missions are done, level 1 advances to level 2 with a
+2500 credit, while level 2 only emits notifications.  Finally
`this.simTime++` runs once, after the whole loop.

The service hooks (`svc`) and the per-tile hook (`tileSim`, applied at
the tile's coordinates) are external code not under `src/`, passed here
as explicit parameters.  The grid size is fixed after construction (spec
§3 invariant), so the loop bounds are read once per step.
-/

/-- The counter increments contributed by one scanned tile slot: (1,0)
for a residential building, (0,1) for a road, (0,0) otherwise. -/
def countDelta (b : Option Building) : Nat × Nat :=
  match b with
  | some b =>
    if b.type = BuildingType.residential then (1, 0)
    else if b.type = BuildingType.road then (0, 1)
    else (0, 0)
  | none => (0, 0)

/-- One iteration of the inner scan loop at `(x, y)`: bump the counters
from the tile's building, then run the tile's `simulate(this)` hook. -/
def scanCell (tileSim : City → Nat → Nat → City)
    (acc : City × Nat × Nat) (x y : Nat) : City × Nat × Nat :=
  let d := countDelta ((getTile acc.1 x y).bind Tile.building)
  (tileSim acc.1 x y, acc.2.1 + d.1, acc.2.2 + d.2)

/-- One iteration of the outer scan loop: scan column `x` for
`y = 0, …, sz-1`. -/
def scanRow (tileSim : City → Nat → Nat → City) (sz : Nat)
    (acc : City × Nat × Nat) (x : Nat) : City × Nat × Nat :=
  (List.range sz).foldl (fun a y => scanCell tileSim a x y) acc

/-- One step of the `while` loop: run the service hooks, then scan the
whole grid.  The incoming counter values are carried over (they are not
reset between steps). -/
def simStep (svc : List (City → City)) (tileSim : City → Nat → Nat → City)
    (acc : City × Nat × Nat) : City × Nat × Nat :=
  let c1 := svc.foldl (fun s f => f s) acc.1
  (List.range c1.size).foldl (scanRow tileSim c1.size) (c1, acc.2.1, acc.2.2)

/-- The full `while (count++ < steps)` loop: `steps` iterations of
`simStep`, threading city and counters. -/
def simSteps (svc : List (City → City)) (tileSim : City → Nat → Nat → City) :
    Nat → City × Nat × Nat → City × Nat × Nat
  | 0, acc => acc
  | n + 1, acc => simSteps svc tileSim n (simStep svc tileSim acc)

/-- Evaluation of one mission: test its threshold kind against the given
population / buildCount / roadCount and set `done := true` when met (a
flag already true is never cleared). -/
def evalMission (pop buildCount roadCount : Nat) (m : Mission) : Mission :=
  match m.kind with
  | MissionKind.citizens =>
    if m.target ≤ pop then { m with done := true } else m
  | MissionKind.buildings =>
    if m.target ≤ buildCount then { m with done := true } else m
  | MissionKind.road =>
    if m.target ≤ roadCount then { m with done := true } else m

/-- The mission section of `simulate`: evaluate every mission of the
current level in order, store the number of done missions in
`missionCounter`, and if all 3 are done advance level 1 to level 2 with a
+2500 credit (level 2 completion only emits notifications, which carry no
state). -/
def evaluateMissions (c : City) (buildCount roadCount : Nat) : City :=
  let ms := (c.levels.getD (c.level - 1) []).map
    (evalMission (population c) buildCount roadCount)
  let counter := (ms.filter Mission.done).length
  let c1 := { c with
    levels := c.levels.set (c.level - 1) ms
    missionCounter := counter }
  if counter = 3 then
    if c1.level = 1 then
      { c1 with level := c1.level + 1, money := c1.money + 2500 }
    else c1
  else c1

/-- `City.simulate(steps)`: run the step loop, evaluate the missions once
on the resulting state and counters, then increment `simTime` once. -/
def simulate (svc : List (City → City)) (tileSim : City → Nat → Nat → City)
    (c : City) (steps : Nat) : City :=
  let r := simSteps svc tileSim steps (c, 0, 0)
  let c2 := evaluateMissions r.1 r.2.1 r.2.2
  { c2 with simTime := c2.simTime + 1 }

/-- The trivial per-tile hook: a tile with no building (or a road) has no
simulation behaviour, so on such grids the real hook acts as the
identity. -/
def tileNoOp : City → Nat → Nat → City := fun c _ _ => c

/-!
## `City.findTile(start, filter, maxDistance)`

Breadth-first search over the 4-neighbour adjacency.  The JS loop pops
the front of `tilesToSearch`; a tile already in `visited` (keyed by
`tile.id`) is skipped; otherwise it is marked visited, then discarded
when its Manhattan distance from the start exceeds `maxDistance`;
otherwise its neighbours are pushed (west, east, north, south) and the
predicate is tested, returning the tile on a match; an empty queue yields
`null`.

`getTile(start.x, start.y)` is pushed with no null check, so an
out-of-bounds start throws a TypeError at `tile.id` on the first
iteration (`none` in the outer `Option`).

The loop is embedded with an explicit fuel of `5 * (#tiles + 1) + 1`
iterations; `bfs_fuel_sufficient` below proves this fuel is never
exhausted, so the inner result (`some r`) is exactly the JS loop's
result.  For a well-formed grid the guarded neighbour lookups always
succeed; an absent lookup (dead code on such grids) contributes no
neighbour.
-/

/-- `City.getTileNeighbors(x, y)`: the in-bounds axis-aligned neighbours
in west, east, north, south push order. -/
def getTileNeighbors (c : City) (x y : Nat) : List Tile :=
  (if 0 < x then (getTile c ((x : Int) - 1) y).toList else []) ++
  (if x < c.size - 1 then (getTile c ((x : Int) + 1) y).toList else []) ++
  (if 0 < y then (getTile c x ((y : Int) - 1)).toList else []) ++
  (if y < c.size - 1 then (getTile c x ((y : Int) + 1)).toList else [])

/-- The `while (tilesToSearch.length > 0)` loop of `findTile`, with
explicit fuel.  Result `none` = fuel exhausted (proved unreachable for
the fuel used by `findTile`); `some none` = queue emptied without a
match; `some (some t)` = `t` returned. -/
def bfsLoop (c : City) (startTile : Tile) (filter : Tile → Bool)
    (maxDistance : Nat) :
    Nat → List Tile → List (Nat × Nat) → Option (Option Tile)
  | _, [], _ => some none
  | 0, _ :: _, _ => none
  | fuel + 1, tile :: rest, visited =>
    if (tile.x, tile.y) ∈ visited then
      bfsLoop c startTile filter maxDistance fuel rest visited
    else
      let visited' := (tile.x, tile.y) :: visited
      if maxDistance < distanceTo startTile tile then
        bfsLoop c startTile filter maxDistance fuel rest visited'
      else
        let queue' := rest ++ getTileNeighbors c tile.x tile.y
        if filter tile then some (some tile)
        else bfsLoop c startTile filter maxDistance fuel queue' visited'

/-- `City.findTile(start, filter, maxDistance)`: seed the queue with
`getTile(start.x, start.y)` and run the search loop.  An out-of-bounds
start gives outer `none` (the JS TypeError at `tile.id`). -/
def findTile (c : City) (sx sy : Int) (filter : Tile → Bool)
    (maxDistance : Nat) : Option (Option Tile) :=
  match getTile c sx sy with
  | none => none
  | some startTile =>
    bfsLoop c startTile filter maxDistance
      (5 * ((allTiles c).length + 1) + 1) [startTile] []

/-!
## Helper lemmas: grid lookup and update
-/

/-- `updateAt` at the updated index reads back the function applied to
the original entry. -/
theorem updateAt_get_self {α : Type} (f : α → α) :
    ∀ (l : List α) (i : Nat), (updateAt i f l).get? i = (l.get? i).map f := by
  intro l
  induction l with
  | nil => intro i; simp [updateAt]
  | cons a as ih =>
    intro i
    cases i with
    | zero => simp [updateAt]
    | succ n => simpa [updateAt] using ih n

/-- `getTile` ignores the treasury. -/
theorem getTile_money (c : City) (m : Int) (x y : Int) :
    getTile { c with money := m } x y = getTile c x y := rfl

/-- `setTileBuilding` leaves the treasury alone. -/
theorem setTileBuilding_money (c : City) (x y : Nat) (b : Option Building) :
    (setTileBuilding c x y b).money = c.money := rfl

/-- After `setTileBuilding` at a position where `getTile` found `tile`,
`getTile` finds the same tile with its `building` slot replaced. -/
theorem getTile_setTileBuilding (c : City) (x y : Int) (tile : Tile)
    (b : Option Building) (h : getTile c x y = some tile) :
    getTile (setTileBuilding c x.toNat y.toNat b) x y =
      some { tile with building := b } := by
  unfold getTile at h ⊢
  by_cases hb : x < 0 ∨ y < 0 ∨ (c.size : Int) ≤ x ∨ (c.size : Int) ≤ y
  · rw [if_pos hb] at h; exact absurd h (by simp)
  · rw [if_neg hb] at h
    obtain ⟨col, hcol, htile⟩ := Option.bind_eq_some.mp h
    have hsz : (setTileBuilding c x.toNat y.toNat b).size = c.size := rfl
    rw [show (setTileBuilding c x.toNat y.toNat b).tiles =
        updateAt x.toNat (updateAt y.toNat fun t => { t with building := b }) c.tiles
      from rfl, hsz, if_neg hb, updateAt_get_self, hcol]
    simp only [Option.map_some', Option.some_bind]
    rw [updateAt_get_self, htile]
    rfl

/-!
## Claims on the economy operations
-/

/-- C3: the claim says `bulldoze` and `destroy` on out-of-bounds
coordinates are silent no-ops; in the code both read
`this.getTile(x, y).building` without a null guard, so the `null`
returned by `getTile` makes them throw a TypeError (`none` in this
embedding) instead — unlike `placeBuilding`, which guards with
`if (tile && ...)`. -/
theorem bulldoze_destroy_oob_throw (c : City) (x y : Int)
    (h : x < 0 ∨ y < 0 ∨ (c.size : Int) ≤ x ∨ (c.size : Int) ≤ y) :
    bulldoze c x y = none ∧ destroy c x y = none := by
  have hg : getTile c x y = none := by unfold getTile; rw [if_pos h]
  unfold bulldoze destroy
  rw [hg]
  exact ⟨rfl, rfl⟩

/-- C3 witness: `bulldoze(-1, 0)` and `destroy(-1, 0)` on a fresh 2×2
city both throw. -/
theorem bulldoze_destroy_oob_throw_witness :
    bulldoze (buildCity 2 0 "w") (-1) 0 = none ∧
      destroy (buildCity 2 0 "w") (-1) 0 = none :=
  bulldoze_destroy_oob_throw (buildCity 2 0 "w") (-1) 0 (by decide)

/-- C5: `hasMoneyForBuild` succeeds exactly for a residential building
with treasury ≥ 500 or a road with treasury ≥ 100; on success it deducts
exactly the scheduled cost and on failure (including every type outside
the schedule) it leaves the city untouched. -/
theorem hasMoneyForBuild_spec (c : City) (t : BuildingType) :
    ((hasMoneyForBuild c t).1 = true ↔
      (t = BuildingType.residential ∧ 500 ≤ c.money) ∨
      (t = BuildingType.road ∧ 100 ≤ c.money))
    ∧ (t = BuildingType.residential → 500 ≤ c.money →
        (hasMoneyForBuild c t).2 = { c with money := c.money - 500 })
    ∧ (t = BuildingType.road → 100 ≤ c.money →
        (hasMoneyForBuild c t).2 = { c with money := c.money - 100 })
    ∧ ((hasMoneyForBuild c t).1 = false → (hasMoneyForBuild c t).2 = c) := by
  unfold hasMoneyForBuild
  rcases t <;> refine ⟨?_, ?_, ?_, ?_⟩ <;> split_ifs with h1 h2 <;> simp_all

/-- C5 witness: with treasury 600, building residential succeeds and
leaves treasury 100. -/
theorem hasMoneyForBuild_spec_witness :
    (hasMoneyForBuild (buildCity 2 600 "w") BuildingType.residential).2 =
      { buildCity 2 600 "w" with money := (buildCity 2 600 "w").money - 500 } :=
  (hasMoneyForBuild_spec (buildCity 2 600 "w") BuildingType.residential).2.1
    rfl (by decide)

/-- C6: on an in-bounds tile, `bulldoze` of an empty tile changes
nothing; of a road it credits exactly 50 and clears the slot; of a
residential building it credits exactly 250 and clears the slot. -/
theorem bulldoze_spec (c : City) (x y : Int) (tile : Tile)
    (h : getTile c x y = some tile) :
    (tile.building = none → bulldoze c x y = some c)
    ∧ (∀ b, tile.building = some b → b.type = BuildingType.road →
        ∃ c', bulldoze c x y = some c' ∧ c'.money = c.money + 50 ∧
          getTile c' x y = some { tile with building := none })
    ∧ (∀ b, tile.building = some b → b.type = BuildingType.residential →
        ∃ c', bulldoze c x y = some c' ∧ c'.money = c.money + 250 ∧
          getTile c' x y = some { tile with building := none }) := by
  refine ⟨?_, ?_, ?_⟩
  · intro hb
    simp [bulldoze, h, hb]
  · intro b hb hr
    refine ⟨setTileBuilding { c with money := c.money + 50 } x.toNat y.toNat none,
      ?_, setTileBuilding_money _ _ _ _,
      getTile_setTileBuilding { c with money := c.money + 50 } x y tile none h⟩
    simp [bulldoze, h, hb, hr]
  · intro b hb hr
    refine ⟨setTileBuilding { c with money := c.money + 250 } x.toNat y.toNat none,
      ?_, setTileBuilding_money _ _ _ _,
      getTile_setTileBuilding { c with money := c.money + 250 } x y tile none h⟩
    simp [bulldoze, h, hb, hr]

/-- C6 witness: bulldozing the road at (0,0) of a 1×1 city credits 50 and
clears the tile. -/
theorem bulldoze_spec_witness :
    ∃ c', bulldoze (setTileBuilding (buildCity 1 0 "w") 0 0
        (some ⟨BuildingType.road, 0⟩)) 0 0 = some c' ∧
      c'.money = (setTileBuilding (buildCity 1 0 "w") 0 0
        (some ⟨BuildingType.road, 0⟩)).money + 50 ∧
      getTile c' 0 0 = some { x := 0, y := 0, building := none } :=
  (bulldoze_spec _ 0 0 ⟨0, 0, some ⟨BuildingType.road, 0⟩⟩ (by decide)).2.1
    ⟨BuildingType.road, 0⟩ rfl rfl

/-- C7: on an in-bounds tile, `destroy` of an empty tile or of any
non-residential building leaves the whole city unchanged (a road
survives), while `destroy` of a residential building clears the slot with
zero treasury change. -/
theorem destroy_spec (c : City) (x y : Int) (tile : Tile)
    (h : getTile c x y = some tile) :
    (tile.building = none → destroy c x y = some c)
    ∧ (∀ b, tile.building = some b → b.type ≠ BuildingType.residential →
        destroy c x y = some c)
    ∧ (∀ b, tile.building = some b → b.type = BuildingType.residential →
        ∃ c', destroy c x y = some c' ∧ c'.money = c.money ∧
          getTile c' x y = some { tile with building := none }) := by
  refine ⟨?_, ?_, ?_⟩
  · intro hb
    simp [destroy, h, hb]
  · intro b hb hr
    simp [destroy, h, hb, hr]
  · intro b hb hr
    refine ⟨setTileBuilding c x.toNat y.toNat none,
      ?_, setTileBuilding_money _ _ _ _,
      getTile_setTileBuilding c x y tile none h⟩
    simp [destroy, h, hb, hr]

/-- C7 witness: destroying the road at (0,0) of a 1×1 city leaves the
city (and the road) untouched. -/
theorem destroy_spec_witness :
    destroy (setTileBuilding (buildCity 1 0 "w") 0 0
        (some ⟨BuildingType.road, 0⟩)) 0 0 =
      some (setTileBuilding (buildCity 1 0 "w") 0 0
        (some ⟨BuildingType.road, 0⟩)) :=
  (destroy_spec _ 0 0 ⟨0, 0, some ⟨BuildingType.road, 0⟩⟩ (by decide)).2.1
    ⟨BuildingType.road, 0⟩ rfl (by decide)

/-!
## Helper lemmas: the step loop and its counters
-/

/-- A fold whose step offsets the two counters independently of their
incoming values propagates any initial counter values additively. -/
theorem foldl_offset {f : City × Nat × Nat → Nat → City × Nat × Nat}
    (hf : ∀ c b r x, f (c, b, r) x =
      ((f (c, 0, 0) x).1, b + (f (c, 0, 0) x).2.1, r + (f (c, 0, 0) x).2.2)) :
    ∀ (xs : List Nat) (c : City) (b r : Nat),
      List.foldl f (c, b, r) xs =
        ((List.foldl f (c, 0, 0) xs).1,
         b + (List.foldl f (c, 0, 0) xs).2.1,
         r + (List.foldl f (c, 0, 0) xs).2.2) := by
  intro xs
  induction xs with
  | nil => intro c b r; simp
  | cons x xs ih =>
    intro c b r
    simp only [List.foldl_cons]
    rw [hf c b r x]
    generalize hq : f (c, 0, 0) x = q
    obtain ⟨c1, d1, d2⟩ := q
    dsimp only
    rw [ih c1 (b + d1) (r + d2), ih c1 d1 d2]
    simp [Nat.add_assoc]

/-- One scanned cell offsets the counters independently of their incoming
values. -/
theorem scanCell_offset (t : City → Nat → Nat → City) (c : City)
    (b r x y : Nat) :
    scanCell t (c, b, r) x y =
      ((scanCell t (c, 0, 0) x y).1, b + (scanCell t (c, 0, 0) x y).2.1,
       r + (scanCell t (c, 0, 0) x y).2.2) := by
  simp [scanCell]

/-- One scanned column offsets the counters independently of their
incoming values. -/
theorem scanRow_offset (t : City → Nat → Nat → City) (sz : Nat) (c : City)
    (b r x : Nat) :
    scanRow t sz (c, b, r) x =
      ((scanRow t sz (c, 0, 0) x).1, b + (scanRow t sz (c, 0, 0) x).2.1,
       r + (scanRow t sz (c, 0, 0) x).2.2) := by
  unfold scanRow
  exact foldl_offset (fun c' b' r' y => scanCell_offset t c' b' r' x y)
    (List.range sz) c b r

/-- One full step offsets the counters independently of their incoming
values: the counters of a step are the step's own scan counts added on
top of whatever was already tallied. -/
theorem simStep_offset (svc : List (City → City))
    (t : City → Nat → Nat → City) (c : City) (b r : Nat) :
    simStep svc t (c, b, r) =
      ((simStep svc t (c, 0, 0)).1,
       b + (simStep svc t (c, 0, 0)).2.1,
       r + (simStep svc t (c, 0, 0)).2.2) := by
  simp only [simStep]
  exact foldl_offset (fun c' b' r' x => scanRow_offset t _ c' b' r' x) _ _ b r

/-- Peeling the last step off the loop. -/
theorem simSteps_succ_last (svc : List (City → City))
    (t : City → Nat → Nat → City) :
    ∀ (n : Nat) (acc : City × Nat × Nat),
      simSteps svc t (n + 1) acc = simStep svc t (simSteps svc t n acc) := by
  intro n
  induction n with
  | zero => intro acc; rfl
  | succ m ih =>
    intro acc
    rw [show simSteps svc t (m + 1 + 1) acc
        = simSteps svc t (m + 1) (simStep svc t acc) from rfl, ih]
    rfl

/-- C1 (amended): the `buildCount`/`roadCount` tallies of a
`simulate(n+1)` call are the tallies of the first `n` steps *plus* the
final step's own scan counts — they accumulate across all steps of the
call rather than reflecting the final step's scan alone. -/
theorem simulate_tallies_accumulate (svc : List (City → City))
    (t : City → Nat → Nat → City) (c : City) (n : Nat) :
    simSteps svc t (n + 1) (c, 0, 0) =
      ((simStep svc t ((simSteps svc t n (c, 0, 0)).1, 0, 0)).1,
       (simSteps svc t n (c, 0, 0)).2.1 +
         (simStep svc t ((simSteps svc t n (c, 0, 0)).1, 0, 0)).2.1,
       (simSteps svc t n (c, 0, 0)).2.2 +
         (simStep svc t ((simSteps svc t n (c, 0, 0)).1, 0, 0)).2.2) := by
  rw [simSteps_succ_last]
  exact simStep_offset svc t (simSteps svc t n (c, 0, 0)).1
    (simSteps svc t n (c, 0, 0)).2.1 (simSteps svc t n (c, 0, 0)).2.2

/-- A 1×1 city whose single tile holds a road. -/
def roadCity : City :=
  setTileBuilding (buildCity 1 0 "r") 0 0 (some ⟨BuildingType.road, 0⟩)

/-- C1 (counterexample): on a 1×1 city holding one road, a
`simulate(2)` call tallies `roadCount = 2`, while the final step's scan
alone counts 1 — the tallies passed to mission evaluation are *not* the
final step's counts. -/
theorem simulate_tallies_cex :
    (simSteps [] tileNoOp 2 (roadCity, 0, 0)).2 ≠
      (simSteps [] tileNoOp 1
        ((simSteps [] tileNoOp 1 (roadCity, 0, 0)).1, 0, 0)).2 := by
  decide

/-!
## Helper lemmas: fields the step loop leaves alone

The loop touches city state only through the external hooks and the
tiles' own hooks; any projection those hooks preserve is preserved by the
whole loop.
-/

/-- A fold preserving a projection of the city component preserves it
over any index list. -/
theorem foldl_proj_fst {γ : Type} (π : City → γ)
    {f : City × Nat × Nat → Nat → City × Nat × Nat}
    (hf : ∀ a x, π (f a x).1 = π a.1) :
    ∀ (xs : List Nat) (acc : City × Nat × Nat),
      π (List.foldl f acc xs).1 = π acc.1 := by
  intro xs
  induction xs with
  | nil => intro acc; rfl
  | cons x xs ih => intro acc; rw [List.foldl_cons, ih, hf]

/-- Running the service hooks preserves any projection each hook
preserves. -/
theorem services_proj {γ : Type} (π : City → γ) :
    ∀ (svc : List (City → City)), (∀ f ∈ svc, ∀ c, π (f c) = π c) →
      ∀ c, π (svc.foldl (fun s f => f s) c) = π c := by
  intro svc
  induction svc with
  | nil => intro _ c; rfl
  | cons f fs ih =>
    intro hs c
    rw [List.foldl_cons,
      ih (fun g hg c' => hs g (List.mem_cons_of_mem f hg) c') (f c)]
    exact hs f (List.mem_cons_self f fs) c

/-- One scanned cell preserves any projection the tile hook preserves. -/
theorem scanCell_proj {γ : Type} (π : City → γ)
    (t : City → Nat → Nat → City) (ht : ∀ c x y, π (t c x y) = π c)
    (a : City × Nat × Nat) (x y : Nat) :
    π (scanCell t a x y).1 = π a.1 :=
  ht a.1 x y

/-- One scanned column preserves any projection the tile hook
preserves. -/
theorem scanRow_proj {γ : Type} (π : City → γ)
    (t : City → Nat → Nat → City) (ht : ∀ c x y, π (t c x y) = π c)
    (sz : Nat) (a : City × Nat × Nat) (x : Nat) :
    π (scanRow t sz a x).1 = π a.1 :=
  foldl_proj_fst π (fun a y => scanCell_proj π t ht a x y) (List.range sz) a

/-- One step preserves any projection all hooks preserve. -/
theorem simStep_proj {γ : Type} (π : City → γ) (svc : List (City → City))
    (t : City → Nat → Nat → City)
    (hs : ∀ f ∈ svc, ∀ c, π (f c) = π c)
    (ht : ∀ c x y, π (t c x y) = π c) :
    ∀ acc, π (simStep svc t acc).1 = π acc.1 := by
  intro acc
  simp only [simStep]
  rw [foldl_proj_fst π (fun a x => scanRow_proj π t ht _ a x) (List.range _) _]
  exact services_proj π svc hs acc.1

/-- The whole step loop preserves any projection all hooks preserve. -/
theorem simSteps_proj {γ : Type} (π : City → γ) (svc : List (City → City))
    (t : City → Nat → Nat → City)
    (hs : ∀ f ∈ svc, ∀ c, π (f c) = π c)
    (ht : ∀ c x y, π (t c x y) = π c) :
    ∀ (n : Nat) (acc : City × Nat × Nat),
      π (simSteps svc t n acc).1 = π acc.1 := by
  intro n
  induction n with
  | zero => intro acc; rfl
  | succ m ih =>
    intro acc
    rw [show simSteps svc t (m + 1) acc
        = simSteps svc t m (simStep svc t acc) from rfl, ih]
    exact simStep_proj π svc t hs ht acc

/-- Mission evaluation never touches the simulation clock. -/
theorem evaluateMissions_simTime (c : City) (bc rc : Nat) :
    (evaluateMissions c bc rc).simTime = c.simTime := by
  simp only [evaluateMissions]
  split_ifs <;> rfl

/-- C2 (amended): provided the external service and tile hooks do not
touch the clock, `simulate(steps)` increments `simTime` by exactly 1 per
*call* — the `this.simTime++` sits after the step loop, so the clock does
not advance by `steps`. -/
theorem simulate_simTime_once_per_call (svc : List (City → City))
    (t : City → Nat → Nat → City) (c : City) (steps : Nat)
    (hs : ∀ f ∈ svc, ∀ c', (f c').simTime = c'.simTime)
    (ht : ∀ c' x y, (t c' x y).simTime = c'.simTime) :
    (simulate svc t c steps).simTime = c.simTime + 1 := by
  show (evaluateMissions (simSteps svc t steps (c, 0, 0)).1
      (simSteps svc t steps (c, 0, 0)).2.1
      (simSteps svc t steps (c, 0, 0)).2.2).simTime + 1 = c.simTime + 1
  rw [evaluateMissions_simTime,
    simSteps_proj City.simTime svc t hs ht steps (c, 0, 0)]

/-- C2 witness: a 3-step call on a fresh city advances the clock from 0
to 1. -/
theorem simulate_simTime_once_per_call_witness :
    (simulate [] tileNoOp (buildCity 1 0 "w") 3).simTime =
      (buildCity 1 0 "w").simTime + 1 :=
  simulate_simTime_once_per_call [] tileNoOp (buildCity 1 0 "w") 3
    (by simp) (fun _ _ _ => rfl)

/-- C2 (counterexample): a `simulate(2)` call on a fresh city leaves
`simTime = 1`, not `0 + 2` — the clock does not increase by `steps`. -/
theorem simulate_simTime_cex :
    (simulate [] tileNoOp (buildCity 1 0 "w") 2).simTime ≠
      (buildCity 1 0 "w").simTime + 2 := by
  decide

/-!
## Helper lemmas: mission evaluation
-/

/-- `evalMission` only ever sets `done` to true, never back to false. -/
theorem evalMission_done_mono (p bc rc : Nat) (m : Mission)
    (h : m.done = true) : (evalMission p bc rc m).done = true := by
  unfold evalMission
  rcases m with ⟨k, tgt, d⟩
  rcases k <;> dsimp <;> split_ifs <;> simp_all

/-- The `levels` table after mission evaluation: the current level's row
mapped through `evalMission`, every other row untouched (the level-up
branch changes `level` and `money` only). -/
theorem evaluateMissions_levels (c : City) (bc rc : Nat) :
    (evaluateMissions c bc rc).levels =
      c.levels.set (c.level - 1)
        ((c.levels.getD (c.level - 1) []).map
          (evalMission (population c) bc rc)) := by
  simp only [evaluateMissions]
  split_ifs <;> rfl

/-- Mission evaluation is monotone on `done` flags: a mission already
done stays done, in every row of the table. -/
theorem evaluateMissions_levels_mono (c : City) (bc rc : Nat) (lv i : Nat)
    (m : Mission) (hm : (c.levels.getD lv []).get? i = some m)
    (hd : m.done = true) :
    ∃ m', (((evaluateMissions c bc rc).levels.getD lv []).get? i = some m')
      ∧ m'.done = true := by
  rw [evaluateMissions_levels]
  by_cases he : lv = c.level - 1
  · rw [← he]
    by_cases hl : lv < c.levels.length
    · obtain ⟨row, hrow⟩ : ∃ row, c.levels.get? lv = some row :=
        ⟨_, List.get?_eq_get hl⟩
      rw [List.getD_eq_getD_get?, List.get?_set_eq, hrow]
      refine ⟨evalMission (population c) bc rc m, ?_,
        evalMission_done_mono _ _ _ m hd⟩
      show ((c.levels.getD lv []).map
          (evalMission (population c) bc rc)).get? i = _
      rw [List.get?_map, hm]
      rfl
    · exfalso
      rw [List.getD_eq_default _ _ (Nat.le_of_not_lt hl)] at hm
      simp at hm
  · refine ⟨m, ?_, hd⟩
    rw [List.getD_eq_getD_get?, List.get?_set_ne _ _ (fun h => he h.symm),
      ← List.getD_eq_getD_get?]
    exact hm

/-- C9: provided the external service and tile hooks do not touch the
mission table, a mission whose `done` flag is true before a `simulate`
call is still done after it — the flag never reverts, whatever the
current metrics are. -/
theorem mission_done_monotone (svc : List (City → City))
    (t : City → Nat → Nat → City) (c : City) (steps : Nat)
    (hs : ∀ f ∈ svc, ∀ c', (f c').levels = c'.levels)
    (ht : ∀ c' x y, (t c' x y).levels = c'.levels)
    (lv i : Nat) (m : Mission)
    (hm : (c.levels.getD lv []).get? i = some m) (hd : m.done = true) :
    ∃ m', (((simulate svc t c steps).levels.getD lv []).get? i = some m')
      ∧ m'.done = true := by
  have h1 : (simSteps svc t steps (c, 0, 0)).1.levels = c.levels :=
    simSteps_proj City.levels svc t hs ht steps (c, 0, 0)
  exact evaluateMissions_levels_mono (simSteps svc t steps (c, 0, 0)).1
    (simSteps svc t steps (c, 0, 0)).2.1 (simSteps svc t steps (c, 0, 0)).2.2
    lv i m (by rw [h1]; exact hm) hd

/-- A 1×1 city whose first level-1 mission is already done. -/
def doneCity : City :=
  { buildCity 1 0 "w" with
    levels := [ [ ⟨MissionKind.citizens, 35, true⟩,
                  ⟨MissionKind.buildings, 5, false⟩,
                  ⟨MissionKind.road, 1, false⟩ ],
                [ ⟨MissionKind.citizens, 75, false⟩,
                  ⟨MissionKind.buildings, 10, false⟩,
                  ⟨MissionKind.road, 5, false⟩ ] ] }

/-- C9 witness: the already-done first mission of `doneCity` is still
done after a `simulate` call even though its population (0) is far below
the 35 threshold. -/
theorem mission_done_monotone_witness :
    ∃ m', (((simulate [] tileNoOp doneCity 1).levels.getD 0 []).get? 0
        = some m') ∧ m'.done = true :=
  mission_done_monotone [] tileNoOp doneCity 1 (by simp) (fun _ _ _ => rfl)
    0 0 ⟨MissionKind.citizens, 35, true⟩ (by decide) rfl

/-- C4: if after a `simulate` call's step loop the city is still at level
1 with the standard level-1 mission row, and the call's tallies and live
population meet all three thresholds (population ≥ 35, buildCount ≥ 5,
roadCount ≥ 1) simultaneously, then the call ends at level 2 with the
treasury exactly 2500 above what the loop left — the level advances
exactly once and the credit is exactly +2500. -/
theorem mission_levelUp (svc : List (City → City))
    (t : City → Nat → Nat → City) (c : City) (steps : Nat) (d1 d2 d3 : Bool)
    (h1 : (simSteps svc t steps (c, 0, 0)).1.level = 1)
    (h2 : (simSteps svc t steps (c, 0, 0)).1.levels.getD 0 [] =
      [⟨MissionKind.citizens, 35, d1⟩, ⟨MissionKind.buildings, 5, d2⟩,
       ⟨MissionKind.road, 1, d3⟩])
    (h3 : 35 ≤ population (simSteps svc t steps (c, 0, 0)).1)
    (h4 : 5 ≤ (simSteps svc t steps (c, 0, 0)).2.1)
    (h5 : 1 ≤ (simSteps svc t steps (c, 0, 0)).2.2) :
    (simulate svc t c steps).level = 2 ∧
      (simulate svc t c steps).money =
        (simSteps svc t steps (c, 0, 0)).1.money + 2500 := by
  show (evaluateMissions (simSteps svc t steps (c, 0, 0)).1
      (simSteps svc t steps (c, 0, 0)).2.1
      (simSteps svc t steps (c, 0, 0)).2.2).level = 2 ∧
    (evaluateMissions (simSteps svc t steps (c, 0, 0)).1
      (simSteps svc t steps (c, 0, 0)).2.1
      (simSteps svc t steps (c, 0, 0)).2.2).money =
      (simSteps svc t steps (c, 0, 0)).1.money + 2500
  unfold evaluateMissions
  rw [h1]
  simp only [Nat.sub_self]
  rw [h2]
  simp [evalMission, h3, h4, h5, h1, -Prod.mk_zero_zero]

/-- A 6×6 city holding 5 residential buildings (one housing 35
residents) and 1 road: all three level-1 mission thresholds are met by a
single `simulate` call. -/
def levelUpCity : City :=
  setTileBuilding (setTileBuilding (setTileBuilding (setTileBuilding
    (setTileBuilding (setTileBuilding (buildCity 6 0 "w") 0 0
      (some ⟨BuildingType.residential, 35⟩)) 1 0
      (some ⟨BuildingType.residential, 0⟩)) 2 0
      (some ⟨BuildingType.residential, 0⟩)) 3 0
      (some ⟨BuildingType.residential, 0⟩)) 4 0
      (some ⟨BuildingType.residential, 0⟩)) 5 0
      (some ⟨BuildingType.road, 0⟩)

/-- C4 witness: one `simulate` call on `levelUpCity` advances the level
from 1 to 2 and credits exactly 2500. -/
theorem mission_levelUp_witness :
    (simulate [] tileNoOp levelUpCity 1).level = 2 ∧
      (simulate [] tileNoOp levelUpCity 1).money =
        (simSteps [] tileNoOp 1 (levelUpCity, 0, 0)).1.money + 2500 :=
  mission_levelUp [] tileNoOp levelUpCity 1 false false false
    (by decide) (by decide) (by decide) (by decide) (by decide)

/-!
## Helper lemmas: the breadth-first search
-/

/-- A successful `getTile` lookup returns a tile stored in the grid. -/
theorem getTile_mem_allTiles {c : City} {x y : Int} {t : Tile}
    (h : getTile c x y = some t) : t ∈ allTiles c := by
  unfold getTile at h
  by_cases hb : x < 0 ∨ y < 0 ∨ (c.size : Int) ≤ x ∨ (c.size : Int) ≤ y
  · rw [if_pos hb] at h; exact absurd h (by simp)
  · rw [if_neg hb] at h
    obtain ⟨col, hcol, htile⟩ := Option.bind_eq_some.mp h
    exact List.mem_flatten.mpr ⟨col, List.get?_mem hcol, List.get?_mem htile⟩

/-- Every neighbour produced by `getTileNeighbors` is stored in the
grid. -/
theorem getTileNeighbors_mem {c : City} {x y : Nat} {t : Tile}
    (h : t ∈ getTileNeighbors c x y) : t ∈ allTiles c := by
  unfold getTileNeighbors at h
  simp only [List.mem_append] at h
  rcases h with ((h | h) | h) | h <;>
  · split at h
    · rw [Option.mem_toList] at h
      exact getTile_mem_allTiles (Option.mem_def.mp h)
    · exact absurd h (List.not_mem_nil t)

/-- At most four neighbours are produced. -/
theorem getTileNeighbors_length_le (c : City) (x y : Nat) :
    (getTileNeighbors c x y).length ≤ 4 := by
  have hif : ∀ (p : Prop) (inst : Decidable p) (o : Option Tile),
      (if p then o.toList else []).length ≤ 1 := by
    intro p inst o
    split
    · cases o <;> simp
    · simp
  unfold getTileNeighbors
  simp only [List.length_append]
  have g1 := hif (0 < x) inferInstance (getTile c ((x : Int) - 1) y)
  have g2 := hif (x < c.size - 1) inferInstance (getTile c ((x : Int) + 1) y)
  have g3 := hif (0 < y) inferInstance (getTile c (x : Int) ((y : Int) - 1))
  have g4 := hif (y < c.size - 1) inferInstance (getTile c (x : Int) ((y : Int) + 1))
  omega

/-- The coordinate pairs (the `tile.id`s) of a list of tiles, as a finite
set. -/
def coordsOf (ts : List Tile) : Finset (Nat × Nat) :=
  (ts.map fun t => (t.x, t.y)).toFinset

/-- Termination measure of the search loop: five times the number of
coordinates — among the grid's and the queue's — not yet visited, plus
the queue length. -/
def bfsMeasure (c : City) (queue : List Tile)
    (visited : List (Nat × Nat)) : Nat :=
  5 * ((coordsOf (allTiles c) ∪ coordsOf queue) \ visited.toFinset).card
    + queue.length

/-- `coordsOf` over a cons. -/
theorem coordsOf_cons (t : Tile) (ts : List Tile) :
    coordsOf (t :: ts) = insert (t.x, t.y) (coordsOf ts) := by
  simp [coordsOf]

/-- `coordsOf` over an append. -/
theorem coordsOf_append (l m : List Tile) :
    coordsOf (l ++ m) = coordsOf l ∪ coordsOf m := by
  simp [coordsOf]

/-- `coordsOf` is monotone under list inclusion. -/
theorem coordsOf_subset {l m : List Tile} (h : ∀ u ∈ l, u ∈ m) :
    coordsOf l ⊆ coordsOf m := by
  intro a ha
  simp only [coordsOf, List.mem_toFinset, List.mem_map] at ha ⊢
  obtain ⟨u, hu, hua⟩ := ha
  exact ⟨u, h u hu, hua⟩

/-- `coordsOf` has at most as many elements as the list. -/
theorem coordsOf_card_le (ts : List Tile) : (coordsOf ts).card ≤ ts.length := by
  unfold coordsOf
  calc ((ts.map fun t => (t.x, t.y)).toFinset).card
      ≤ (ts.map fun t => (t.x, t.y)).length := List.toFinset_card_le _
    _ = ts.length := List.length_map _ _

/-- Skipping an already-visited queue head decreases the measure. -/
theorem bfsMeasure_tail (c : City) (t : Tile) (rest : List Tile)
    (visited : List (Nat × Nat)) :
    bfsMeasure c rest visited + 1 ≤ bfsMeasure c (t :: rest) visited := by
  unfold bfsMeasure
  have hsub : (coordsOf (allTiles c) ∪ coordsOf rest) \ visited.toFinset ⊆
      (coordsOf (allTiles c) ∪ coordsOf (t :: rest)) \ visited.toFinset := by
    refine Finset.sdiff_subset_sdiff ?_ (Finset.Subset.refl _)
    refine Finset.union_subset_union_right ?_
    rw [coordsOf_cons]
    exact Finset.subset_insert _ _
  have := Finset.card_le_card hsub
  simp only [List.length_cons]
  omega

/-- Marking a distance-filtered head visited decreases the measure. -/
theorem bfsMeasure_visit (c : City) (t : Tile) (rest : List Tile)
    (visited : List (Nat × Nat)) :
    bfsMeasure c rest ((t.x, t.y) :: visited) + 1 ≤
      bfsMeasure c (t :: rest) visited := by
  unfold bfsMeasure
  have hsub : (coordsOf (allTiles c) ∪ coordsOf rest) \
        ((t.x, t.y) :: visited).toFinset ⊆
      (coordsOf (allTiles c) ∪ coordsOf (t :: rest)) \ visited.toFinset := by
    refine Finset.sdiff_subset_sdiff ?_ ?_
    · refine Finset.union_subset_union_right ?_
      rw [coordsOf_cons]
      exact Finset.subset_insert _ _
    · rw [List.toFinset_cons]
      exact Finset.subset_insert _ _
  have := Finset.card_le_card hsub
  simp only [List.length_cons]
  omega

/-- Expanding an unvisited head — enqueueing its at most 4 neighbours and
marking it visited — decreases the measure: the head's coordinate leaves
the unvisited set for good. -/
theorem bfsMeasure_expand (c : City) (t : Tile) (rest : List Tile)
    (visited : List (Nat × Nat)) (hv : (t.x, t.y) ∉ visited) :
    bfsMeasure c (rest ++ getTileNeighbors c t.x t.y)
        ((t.x, t.y) :: visited) + 1 ≤ bfsMeasure c (t :: rest) visited := by
  unfold bfsMeasure
  have htS : (t.x, t.y) ∈
      (coordsOf (allTiles c) ∪ coordsOf (t :: rest)) \ visited.toFinset := by
    rw [Finset.mem_sdiff]
    refine ⟨Finset.mem_union_right _ ?_, ?_⟩
    · rw [coordsOf_cons]; exact Finset.mem_insert_self _ _
    · rw [List.mem_toFinset]; exact hv
  have hsub : (coordsOf (allTiles c) ∪
        coordsOf (rest ++ getTileNeighbors c t.x t.y)) \
        ((t.x, t.y) :: visited).toFinset ⊆
      (((coordsOf (allTiles c) ∪ coordsOf (t :: rest)) \
        visited.toFinset).erase (t.x, t.y)) := by
    intro a ha
    rw [Finset.mem_sdiff] at ha
    obtain ⟨ha1, ha2⟩ := ha
    simp only [List.toFinset_cons, Finset.mem_insert, not_or] at ha2
    obtain ⟨hane, hanv⟩ := ha2
    rw [Finset.mem_erase]
    refine ⟨hane, ?_⟩
    rw [Finset.mem_sdiff]
    refine ⟨?_, hanv⟩
    rw [coordsOf_append] at ha1
    rcases Finset.mem_union.mp ha1 with h1 | h1
    · exact Finset.mem_union_left _ h1
    · rcases Finset.mem_union.mp h1 with h2 | h2
      · refine Finset.mem_union_right _ ?_
        rw [coordsOf_cons]
        exact Finset.mem_insert_of_mem h2
      · refine Finset.mem_union_left _ ?_
        exact coordsOf_subset (fun u hu => getTileNeighbors_mem hu) h2
  have hlt := lt_of_le_of_lt (Finset.card_le_card hsub)
    (Finset.card_erase_lt_of_mem htS)
  have hn := getTileNeighbors_length_le c t.x t.y
  simp only [List.length_append, List.length_cons]
  omega

/-- The fuel `findTile` hands to the loop is never exhausted: with fuel
at least the measure, the loop completes as the unbounded JS `while` loop
does. -/
theorem bfs_fuel_sufficient (c : City) (startTile : Tile)
    (filter : Tile → Bool) (maxDistance : Nat) :
    ∀ (fuel : Nat) (queue : List Tile) (visited : List (Nat × Nat)),
      bfsMeasure c queue visited ≤ fuel →
      bfsLoop c startTile filter maxDistance fuel queue visited ≠ none := by
  intro fuel
  induction fuel with
  | zero =>
    intro queue visited h
    cases queue with
    | nil => simp [bfsLoop]
    | cons t rest =>
      exfalso
      unfold bfsMeasure at h
      simp only [List.length_cons] at h
      omega
  | succ n ih =>
    intro queue visited h
    cases queue with
    | nil => simp [bfsLoop]
    | cons t rest =>
      simp only [bfsLoop]
      by_cases hv : (t.x, t.y) ∈ visited
      · rw [if_pos hv]
        exact ih rest visited
          (by have := bfsMeasure_tail c t rest visited; omega)
      · rw [if_neg hv]
        by_cases hdist : maxDistance < distanceTo startTile t
        · rw [if_pos hdist]
          exact ih rest _
            (by have := bfsMeasure_visit c t rest visited; omega)
        · rw [if_neg hdist]
          by_cases hf : filter t = true
          · rw [if_pos hf]; simp
          · rw [if_neg hf]
            exact ih _ _
              (by have := bfsMeasure_expand c t rest visited hv; omega)

/-- Soundness of the loop: when every queued tile is stored in the grid,
a returned tile is stored in the grid, satisfies the predicate, and lies
within the distance cutoff (the predicate is only ever tested on tiles
that passed the distance filter). -/
theorem bfs_sound (c : City) (startTile : Tile) (filter : Tile → Bool)
    (maxDistance : Nat) :
    ∀ (fuel : Nat) (queue : List Tile) (visited : List (Nat × Nat))
      (t : Tile),
      (∀ u ∈ queue, u ∈ allTiles c) →
      bfsLoop c startTile filter maxDistance fuel queue visited
        = some (some t) →
      t ∈ allTiles c ∧ filter t = true ∧
        distanceTo startTile t ≤ maxDistance := by
  intro fuel
  induction fuel with
  | zero =>
    intro queue visited t hq h
    cases queue with
    | nil => simp [bfsLoop] at h
    | cons a rest => simp [bfsLoop] at h
  | succ n ih =>
    intro queue visited t hq h
    cases queue with
    | nil => simp [bfsLoop] at h
    | cons a rest =>
      simp only [bfsLoop] at h
      by_cases hv : (a.x, a.y) ∈ visited
      · rw [if_pos hv] at h
        exact ih rest visited t
          (fun u hu => hq u (List.mem_cons_of_mem a hu)) h
      · rw [if_neg hv] at h
        by_cases hdist : maxDistance < distanceTo startTile a
        · rw [if_pos hdist] at h
          exact ih rest _ t
            (fun u hu => hq u (List.mem_cons_of_mem a hu)) h
        · rw [if_neg hdist] at h
          by_cases hf : filter a = true
          · rw [if_pos hf] at h
            have hat : a = t := by simpa using h
            subst hat
            exact ⟨hq a (List.mem_cons_self a rest), hf,
              Nat.le_of_not_lt hdist⟩
          · rw [if_neg hf] at h
            refine ih _ _ t ?_ h
            intro u hu
            rcases List.mem_append.mp hu with h1 | h2
            · exact hq u (List.mem_cons_of_mem a h1)
            · exact getTileNeighbors_mem h2

/-- `findTile` from an in-bounds start: the JS loop completes (the fuel
bound is sufficient), and any tile it returns is a grid tile matching the
predicate within the distance cutoff. -/
theorem findTile_spec (c : City) (sx sy : Int) (filter : Tile → Bool)
    (maxDistance : Nat) (s : Tile) (hs : getTile c sx sy = some s) :
    ∃ r, findTile c sx sy filter maxDistance = some r ∧
      ∀ t, r = some t → t ∈ allTiles c ∧ filter t = true ∧
        distanceTo s t ≤ maxDistance := by
  have hstart : ∀ u ∈ [s], u ∈ allTiles c := by
    intro u hu
    rw [List.mem_singleton] at hu
    subst hu
    exact getTile_mem_allTiles hs
  have hfuel : bfsMeasure c [s] [] ≤ 5 * ((allTiles c).length + 1) + 1 := by
    unfold bfsMeasure
    have h1 : ((coordsOf (allTiles c) ∪ coordsOf [s]) \
          (([] : List (Nat × Nat)).toFinset)).card ≤
        (allTiles c).length + 1 := by
      calc ((coordsOf (allTiles c) ∪ coordsOf [s]) \
            (([] : List (Nat × Nat)).toFinset)).card
          ≤ (coordsOf (allTiles c) ∪ coordsOf [s]).card :=
            Finset.card_le_card Finset.sdiff_subset
        _ ≤ (coordsOf (allTiles c)).card + (coordsOf [s]).card :=
            Finset.card_union_le _ _
        _ ≤ (allTiles c).length + 1 :=
            Nat.add_le_add (coordsOf_card_le _) (coordsOf_card_le [s])
    simp only [List.length_singleton]
    omega
  have hne := bfs_fuel_sufficient c s filter maxDistance
    (5 * ((allTiles c).length + 1) + 1) [s] [] hfuel
  obtain ⟨r, hr⟩ := Option.ne_none_iff_exists'.mp hne
  refine ⟨r, ?_, ?_⟩
  · unfold findTile
    rw [hs]
    exact hr
  · intro t htr
    rw [htr] at hr
    exact bfs_sound c s filter maxDistance _ [s] [] t hstart hr

/-- Unpacking `WFb`: the grid is a `size × size` matrix whose entry at
`[x][y]` carries coordinates `(x, y)`. -/
theorem wfb_parts (c : City) (h : WFb c = true) :
    c.tiles.length = c.size ∧
    ∀ x : Nat, x < c.size →
      ∃ col, c.tiles.get? x = some col ∧ col.length = c.size ∧
        ∀ y : Nat, y < c.size →
          ∃ t, col.get? y = some t ∧ t.x = x ∧ t.y = y := by
  unfold WFb at h
  rw [Bool.and_eq_true, List.all_eq_true] at h
  obtain ⟨h1, h2⟩ := h
  refine ⟨by simpa using h1, ?_⟩
  intro x hx
  have hx' := h2 x (List.mem_range.mpr hx)
  cases hcol : c.tiles.get? x with
  | none =>
    simp only [hcol] at hx'
    exact absurd hx' (by simp)
  | some col =>
    simp only [hcol] at hx'
    rw [Bool.and_eq_true, List.all_eq_true] at hx'
    obtain ⟨hl, hy⟩ := hx'
    refine ⟨col, rfl, by simpa using hl, ?_⟩
    intro y hy'
    have hyy := hy y (List.mem_range.mpr hy')
    cases ht : col.get? y with
    | none =>
      simp only [ht] at hyy
      exact absurd hyy (by simp)
    | some t =>
      simp only [ht] at hyy
      rw [Bool.and_eq_true] at hyy
      exact ⟨t, rfl, by simpa using hyy.1, by simpa using hyy.2⟩

/-- In a well-formed grid, every in-bounds lookup succeeds and the tile
found carries the looked-up coordinates. -/
theorem wf_getTile (c : City) (h : WFb c = true) (x y : Nat)
    (hx : x < c.size) (hy : y < c.size) :
    ∃ t, getTile c (x : Int) (y : Int) = some t ∧ t.x = x ∧ t.y = y := by
  obtain ⟨-, h2⟩ := wfb_parts c h
  obtain ⟨col, hcol, -, hys⟩ := h2 x hx
  obtain ⟨t, ht, htx, hty⟩ := hys y hy
  refine ⟨t, ?_, htx, hty⟩
  unfold getTile
  have hcond : ¬((x : Int) < 0 ∨ (y : Int) < 0 ∨
      (c.size : Int) ≤ (x : Int) ∨ (c.size : Int) ≤ (y : Int)) := by omega
  rw [if_neg hcond, Int.toNat_natCast, Int.toNat_natCast, hcol]
  simpa using ht

/-- In a well-formed grid, a stored tile is found again by looking up its
own coordinates: coordinates identify tiles. -/
theorem wf_mem_getTile (c : City) (h : WFb c = true) (t : Tile)
    (ht : t ∈ allTiles c) :
    getTile c (t.x : Int) (t.y : Int) = some t := by
  rw [allTiles, List.mem_flatten] at ht
  obtain ⟨col, hcolmem, htcol⟩ := ht
  obtain ⟨⟨x0, hx0⟩, hcolget⟩ := List.get_of_mem hcolmem
  obtain ⟨⟨y0, hy0⟩, htget⟩ := List.get_of_mem htcol
  have hcolq : c.tiles.get? x0 = some col := by
    rw [List.get?_eq_get hx0, hcolget]
  have htq : col.get? y0 = some t := by
    rw [List.get?_eq_get hy0, htget]
  obtain ⟨hlen, h2⟩ := wfb_parts c h
  have hx0s : x0 < c.size := hlen ▸ hx0
  obtain ⟨col', hcol', hclen, hys⟩ := h2 x0 hx0s
  have hcc : col' = col := by
    rw [hcolq] at hcol'
    exact Option.some_inj.mp hcol'.symm
  subst hcc
  have hy0s : y0 < c.size := by rw [← hclen]; exact hy0
  obtain ⟨t', ht', htx, hty⟩ := hys y0 hy0s
  have htt : t' = t := by
    rw [htq] at ht'
    exact (Option.some_inj.mp ht').symm
  subst htt
  rw [htx, hty]
  unfold getTile
  have hcond : ¬((x0 : Int) < 0 ∨ (y0 : Int) < 0 ∨
      (c.size : Int) ≤ (x0 : Int) ∨ (c.size : Int) ≤ (y0 : Int)) := by omega
  rw [if_neg hcond, Int.toNat_natCast, Int.toNat_natCast, hcolq]
  simpa using htq

/-- Manhattan distance 0 forces equal coordinates. -/
theorem distanceTo_le_zero {a b : Tile} (h : distanceTo a b ≤ 0) :
    b.x = a.x ∧ b.y = a.y := by
  unfold distanceTo at h
  omega

/-- C10: `findTile` called with an in-bounds start on a well-formed grid
is well-defined and terminates: the loop's result exists (`some r`), and
a returned tile is a real grid tile satisfying the predicate.  (The
in-bounds start is a genuine precondition: by definition `findTile`
yields the crash marker, not an absence result, when `getTile` returns
absence for the start.) -/
theorem findTile_terminates (c : City) (sx sy : Int)
    (filter : Tile → Bool) (maxDistance : Nat) (s : Tile)
    (hW : WFb c = true) (hs : getTile c sx sy = some s) :
    ∃ r, findTile c sx sy filter maxDistance = some r ∧
      ∀ t, r = some t → t ∈ allTiles c ∧ filter t = true := by
  obtain ⟨r, hr, hsound⟩ := findTile_spec c sx sy filter maxDistance s hs
  exact ⟨r, hr, fun t htr => ⟨(hsound t htr).1, (hsound t htr).2.1⟩⟩

/-- C10 witness: on a fresh 2×2 city, the search from (0,0) for a tile in
column 1 completes and returns only qualifying grid tiles. -/
theorem findTile_terminates_witness :
    ∃ r, findTile (buildCity 2 0 "w") 0 0 (fun t => t.x == 1) 3
        = some r ∧
      ∀ t, r = some t →
        t ∈ allTiles (buildCity 2 0 "w") ∧ (t.x == 1) = true :=
  findTile_terminates (buildCity 2 0 "w") 0 0 (fun t => t.x == 1) 3
    ⟨0, 0, none⟩ (by decide) (by decide)

/-- C8: `findTile` from (0,0) with `maxDistance = 0` on a well-formed
non-empty grid only ever returns the start tile itself (every other
popped tile is discarded by the distance filter before the predicate is
tested), and with a predicate matching no grid tile it returns absence
once the frontier is exhausted. -/
theorem findTile_origin_spec (c : City) (filter : Tile → Bool)
    (hW : WFb c = true) (hsz : 0 < c.size) :
    ∃ s, getTile c 0 0 = some s ∧
      (∀ t, findTile c 0 0 filter 0 = some (some t) → t = s) ∧
      ((∀ u ∈ allTiles c, filter u = false) →
        findTile c 0 0 filter 0 = some none) := by
  obtain ⟨s, hs0, hsx, hsy⟩ := wf_getTile c hW 0 0 hsz hsz
  have hs : getTile c 0 0 = some s := by simpa using hs0
  obtain ⟨r, hr, hsound⟩ := findTile_spec c 0 0 filter 0 s hs
  refine ⟨s, hs, ?_, ?_⟩
  · intro t htr
    have hrt : r = some t := by
      rw [hr] at htr
      exact Option.some_inj.mp htr
    obtain ⟨hmem, hft, hdist⟩ := hsound t hrt
    obtain ⟨hxx, hyy⟩ := distanceTo_le_zero hdist
    have hmm := wf_mem_getTile c hW t hmem
    rw [hxx, hsx, hyy, hsy] at hmm
    have h00 : getTile c 0 0 = some t := by simpa using hmm
    rw [hs] at h00
    exact (Option.some_inj.mp h00).symm
  · intro hnone
    cases hrc : r with
    | none => rw [hrc] at hr; exact hr
    | some t =>
      obtain ⟨hmem, hft, -⟩ := hsound t hrc
      rw [hnone t hmem] at hft
      exact absurd hft (by simp)

/-- C8 witness: on a fresh 2×2 city with the never-true predicate, the
(0,0) search with cutoff 0 returns absence, and any returned tile could
only have been the start tile. -/
theorem findTile_origin_spec_witness :
    ∃ s, getTile (buildCity 2 0 "w") 0 0 = some s ∧
      (∀ t, findTile (buildCity 2 0 "w") 0 0 (fun _ => false) 0
          = some (some t) → t = s) ∧
      ((∀ u ∈ allTiles (buildCity 2 0 "w"),
          (fun (_ : Tile) => false) u = false) →
        findTile (buildCity 2 0 "w") 0 0 (fun _ => false) 0 = some none) :=
  findTile_origin_spec (buildCity 2 0 "w") (fun _ => false)
    (by decide) (by decide)
